import Mathlib

/-
Shallow embedding of the `script` pipe library (src/pipes.go).

A Go `*Pipe` is modelled as `Option Pipe`: `none` is the nil pointer (an
"absent" pipe), `some p` a present one.  Go errors are modelled by their
message string (`Err`), a nilable error by `Option Err`.  The mutable
receiver methods of Go are modelled as functions returning the updated
value; "returns the same pipe" becomes value equality with the input.
-/

namespace Script

/-- A Go error value, identified with its `Error()` message text. -/
abbrev Err := String

/-- Modelled from the spec: `ReadAutoCloser` (the Closable Source) is not under
src/; per the spec it wraps a byte-stream provider plus a release callback.
We model the byte stream by the list of bytes it will still yield (`data`),
followed by a terminal outcome: clean end-of-data when `fail = none`, or an
I/O error `fail = some e`.  `closeRes` is the result of the release action. -/
structure ReadAutoCloser where
  data : List Nat
  fail : Option Err
  closeRes : Option Err
deriving DecidableEq, Repr

/-- The outcome slot of a read: `nil`, `io.EOF`, or another I/O error. -/
inductive ReadErr where
  | eof
  | ioe (msg : Err)
deriving DecidableEq, Repr

/-- Modelled from the spec: a single `Read(b)` call on the source.  With bytes
remaining it fills up to `n` bytes of the buffer and reports no error; once
exhausted it reports `io.EOF` (clean end) or the source's I/O error. -/
def ReadAutoCloser.read (r : ReadAutoCloser) (n : Nat) :
    (Nat × Option ReadErr) × ReadAutoCloser :=
  match r.data with
  | [] =>
    match r.fail with
    | some e => ((0, some (ReadErr.ioe e)), r)
    | none => ((0, some ReadErr.eof), r)
  | _ =>
    let k := min n r.data.length
    ((k, none), ReadAutoCloser.mk (r.data.drop k) r.fail r.closeRes)

/-- Modelled from the spec: `Close` fires the release action; its result is the
release action's own result (`nil` for a `NopCloser`). -/
def ReadAutoCloser.close (r : ReadAutoCloser) : Option Err :=
  r.closeRes

/-- Modelled from the spec: `NewReadAutoCloser` wraps an arbitrary reader so it
closes itself when fully read.  In this model a reader is already represented
by its byte stream and outcomes, so the wrapper is the identity. -/
def NewReadAutoCloser (r : ReadAutoCloser) : ReadAutoCloser := r

/-- Modelled from the spec: `io.Copy(&w, r)` drains `r` to completion, so the
buffer `w` receives every remaining byte; the returned error is `nil` on clean
end-of-data and the source's I/O error otherwise (`io.EOF` is not reported). -/
def ioCopy (r : ReadAutoCloser) : List Nat × Option Err :=
  (r.data, r.fail)

/-- src/pipes.go: `type Pipe struct { Reader ReadAutoCloser; err error; async bool }` -/
structure Pipe where
  Reader : ReadAutoCloser
  err : Option Err
  async : Bool
deriving DecidableEq, Repr

/-- src/pipes.go `NewPipe`: a new empty pipe, streaming turned off. -/
def NewPipe : Pipe :=
  Pipe.mk (ReadAutoCloser.mk [] none none) none false

/-- src/pipes.go `(*Pipe).Close`: nil receiver returns nil, otherwise closes
the associated reader. -/
def Pipe.Close (p : Option Pipe) : Option Err :=
  match p with
  | none => none
  | some q => q.Reader.close

/-- src/pipes.go `(*Pipe).Error`: nil receiver returns nil, otherwise the
sticky error field. -/
def Pipe.Error (p : Option Pipe) : Option Err :=
  match p with
  | none => none
  | some q => q.err

/-- The literal part of the pattern `exit status (\d+)$` from src/pipes.go. -/
def exitLit : List Char := "exit status ".toList

/-- The maximal all-digit suffix of a character list (what the greedy final
`(\d+)$` group captures when the pattern matches). -/
def digitSuffix (cs : List Char) : List Char :=
  (cs.reverse.takeWhile Char.isDigit).reverse

/-- The characters before the maximal all-digit suffix. -/
def chopDigits (cs : List Char) : List Char :=
  (cs.reverse.dropWhile Char.isDigit).reverse

/-- `exitStatusPattern.FindStringSubmatch` with the pattern
`exit status (\d+)$` from src/pipes.go, returning the capture group on a
match.  The pattern matches iff the text ends with the literal
`"exit status "` followed by one or more digits running to the end of the
string; the group then captures exactly that digit run (the digit run is the
maximal digit suffix, since the literal ends in a space). -/
def findExitStatus (msg : String) : Option (List Char) :=
  if digitSuffix msg.toList ≠ [] ∧ exitLit.isSuffixOf (chopDigits msg.toList) then
    some (digitSuffix msg.toList)
  else none

/-- Decimal value of a digit string. -/
def digitsVal (ds : List Char) : Nat :=
  ds.foldl (fun a c => a * 10 + (c.toNat - 48)) 0

/-- Go `strconv.Atoi` restricted to the capture of `(\d+)`: the text is one or
more ASCII digits (no sign), so `Atoi` fails only when the value overflows a
64-bit `int`. -/
def atoi (ds : List Char) : Option Nat :=
  if ds ≠ [] ∧ ds.all Char.isDigit ∧ digitsVal ds ≤ 2 ^ 63 - 1 then
    some (digitsVal ds)
  else none

/-- src/pipes.go `(*Pipe).ExitStatus`: 0 when the error is nil, the pattern
does not match, or the captured digits fail to parse; the parsed capture
otherwise. -/
def Pipe.ExitStatus (p : Option Pipe) : Nat :=
  match Pipe.Error p with
  | none => 0
  | some msg =>
    match findExitStatus msg with
    | none => 0
    | some ds =>
      match atoi ds with
      | none => 0
      | some v => v

/-- src/pipes.go `(*Pipe).Read`: `(0, io.EOF)` on a nil pipe, otherwise the
call is forwarded to `p.Reader.Read(b)` (the sticky error is not consulted). -/
def Pipe.Read (p : Option Pipe) (n : Nat) :
    (Nat × Option ReadErr) × Option Pipe :=
  match p with
  | none => ((0, some ReadErr.eof), none)
  | some q =>
    let res := q.Reader.read n
    (res.1, some (Pipe.mk res.2 q.err q.async))

/-- src/pipes.go `(*Pipe).SetError`: on a present pipe, unconditionally
overwrites the sticky error field with the argument (which may be nil). -/
def Pipe.SetError (p : Option Pipe) (e : Option Err) : Option Pipe :=
  match p with
  | none => none
  | some q => some (Pipe.mk q.Reader e q.async)

/-- src/pipes.go `(*Pipe).WithReader`: nil receiver returns nil, otherwise
replaces the pipe's `Reader` with `NewReadAutoCloser(r)` and returns the same
pipe. -/
def Pipe.WithReader (p : Option Pipe) (r : ReadAutoCloser) : Option Pipe :=
  match p with
  | none => none
  | some q => some (Pipe.mk (NewReadAutoCloser r) q.err q.async)

/-- src/pipes.go `(*Pipe).WithError`: sets the error and returns the pipe. -/
def Pipe.WithError (p : Option Pipe) (e : Option Err) : Option Pipe :=
  Pipe.SetError p e

/-- src/pipes.go `(*Pipe).withAsync`: sets the streaming flag (no nil guard in
the source; only called on present pipes). -/
def Pipe.withAsync (p : Pipe) (b : Bool) : Pipe :=
  Pipe.mk p.Reader p.err b

/-- src/pipes.go package-level `Stream()`: `NewPipe().withAsync(true)`. -/
def Stream : Option Pipe :=
  some (NewPipe.withAsync true)

/-- src/pipes.go `(*Pipe).Stream`: nil receiver returned unchanged, otherwise
`withAsync(true)` on the same pipe. -/
def Pipe.Stream (p : Option Pipe) : Option Pipe :=
  match p with
  | none => none
  | some q => some (q.withAsync true)

/-- src/pipes.go `(*Pipe).Synchronize`: returns the pipe itself when the
receiver is nil, the sticky error is non-nil, or streaming is off; otherwise
drains the reader with `io.Copy` into a buffer (the copy error is discarded)
and returns `NewPipe().WithReader(bytes.NewReader(buf)).withAsync(false)`. -/
def Pipe.Synchronize (p : Option Pipe) : Option Pipe :=
  match p with
  | none => none
  | some q =>
    match q.err, q.async with
    | none, true =>
      match Pipe.WithReader (some NewPipe) (ReadAutoCloser.mk (ioCopy q.Reader).1 none none) with
      | none => none
      | some w => some (w.withAsync false)
    | _, _ => some q

/-- Modelled from the spec: the concurrent stage runners (`EachLine` and its
kin) are not under src/.  Per the spec, a stage that observes a failure of its
own records it "only if no upstream failure already exists": it consults the
chain's sticky error and records its error only when that slot is empty. -/
def observeError (p : Option Pipe) (e : Err) : Option Pipe :=
  match Pipe.Error p with
  | some _ => p
  | none => Pipe.SetError p (some e)

/-- Modelled from the spec: the sequence of failure observations made by the
chain's stages over one run, applied in observation order. -/
def observeChain (p : Option Pipe) (es : List Err) : Option Pipe :=
  es.foldl observeError p

/-- Modelled from the spec: `Wait` is not under src/; it joins every running
stage and returns the chain's first recorded error, or nil — i.e. it reports
the sticky error slot. -/
def waitError (p : Option Pipe) : Option Err :=
  Pipe.Error p

/-- A record (one line's payload bytes), for the pure per-record stage model. -/
abbrev Rec := List Nat

/-- Modelled from the spec: a batch-mode stage application.  The stage
combinators are not under src/; per the spec a pure per-record stage emits,
for each input record, its output records in input order. -/
def runStageBatch (f : Rec → List Rec) (rs : List Rec) : List Rec :=
  rs.flatMap f

/-- Modelled from the spec: batch (non-streaming) execution of a chain — each
stage runs to completion on the fully materialized data before the next. -/
def runChainBatch (fs : List (Rec → List Rec)) (rs : List Rec) : List Rec :=
  fs.foldl (fun acc f => runStageBatch f acc) rs

/-- Modelled from the spec: streaming execution of a chain — each record flows
through the whole chain as it arrives; per the spec's ordering guarantee,
whatever the chain emits for record X is fully written before anything it
emits for a later record Y. -/
def runChainStream (fs : List (Rec → List Rec)) (rs : List Rec) : List Rec :=
  rs.flatMap (fun r => runChainBatch fs [r])

/-- Serialization of records to the byte stream (newline-terminated lines). -/
def recBytes (rs : List Rec) : List Nat :=
  rs.flatMap (fun r => r ++ [10])

/-! Helper lemmas about `takeWhile`/`dropWhile` and the digit-suffix view of
the pattern `exit status (\d+)$`. -/

theorem takeWhile_append_all {α : Type} (p : α → Bool) (a b : List α)
    (h : a.all p = true) : (a ++ b).takeWhile p = a ++ b.takeWhile p := by
  induction a with
  | nil => simp
  | cons x xs ih =>
    simp only [List.all_cons, Bool.and_eq_true] at h
    simp [List.takeWhile_cons, h.1, ih h.2]

theorem dropWhile_append_all {α : Type} (p : α → Bool) (a b : List α)
    (h : a.all p = true) : (a ++ b).dropWhile p = b.dropWhile p := by
  induction a with
  | nil => simp
  | cons x xs ih =>
    simp only [List.all_cons, Bool.and_eq_true] at h
    simp [List.dropWhile_cons, h.1, ih h.2]

theorem all_takeWhile {α : Type} (p : α → Bool) (l : List α) :
    (l.takeWhile p).all p = true := by
  induction l with
  | nil => simp
  | cons x xs ih =>
    rw [List.takeWhile_cons]
    cases hx : p x with
    | false => simp
    | true => simp [hx, ih]

theorem chopDigits_append_digitSuffix (cs : List Char) :
    chopDigits cs ++ digitSuffix cs = cs := by
  unfold chopDigits digitSuffix
  rw [← List.reverse_append, List.takeWhile_append_dropWhile, List.reverse_reverse]

theorem digitSuffix_all (cs : List Char) :
    (digitSuffix cs).all Char.isDigit = true := by
  unfold digitSuffix
  rw [List.all_reverse]
  exact all_takeWhile Char.isDigit cs.reverse

theorem exitLit_reverse : exitLit.reverse = ' ' :: "sutats tixe".toList := by decide

/-- Decomposing a string that ends with `"exit status "` followed by digits:
the maximal digit suffix is exactly that digit run, because the literal ends
in a space. -/
theorem digitSuffix_of_decomp (pre ds : List Char)
    (hall : ds.all Char.isDigit = true) :
    digitSuffix (pre ++ exitLit ++ ds) = ds ∧
    chopDigits (pre ++ exitLit ++ ds) = pre ++ exitLit := by
  have hrev : (pre ++ exitLit ++ ds).reverse =
      ds.reverse ++ (exitLit.reverse ++ pre.reverse) := by
    simp [List.reverse_append]
  have hallrev : ds.reverse.all Char.isDigit = true := by
    rw [List.all_reverse]; exact hall
  have htake : (pre ++ exitLit ++ ds).reverse.takeWhile Char.isDigit = ds.reverse := by
    rw [hrev, takeWhile_append_all Char.isDigit ds.reverse _ hallrev,
      exitLit_reverse, List.cons_append, List.takeWhile_cons]
    simp
  have hdrop : (pre ++ exitLit ++ ds).reverse.dropWhile Char.isDigit =
      exitLit.reverse ++ pre.reverse := by
    rw [hrev, dropWhile_append_all Char.isDigit ds.reverse _ hallrev,
      exitLit_reverse, List.cons_append, List.dropWhile_cons]
    simp
  constructor
  · unfold digitSuffix
    rw [htake, List.reverse_reverse]
  · unfold chopDigits
    rw [hdrop, List.reverse_append, List.reverse_reverse, List.reverse_reverse]

theorem findExitStatus_eq_some (msg : String) (pre ds : List Char)
    (hmsg : msg.toList = pre ++ exitLit ++ ds) (hne : ds ≠ [])
    (hall : ds.all Char.isDigit = true) : findExitStatus msg = some ds := by
  obtain ⟨h1, h2⟩ := digitSuffix_of_decomp pre ds hall
  have hsuf : exitLit.isSuffixOf (pre ++ exitLit) = true :=
    List.isSuffixOf_iff_suffix.mpr ⟨pre, rfl⟩
  unfold findExitStatus
  rw [hmsg, h1, h2]
  simp [hne, hsuf]

theorem findExitStatus_some_decomp (msg : String) (ds : List Char)
    (h : findExitStatus msg = some ds) :
    ∃ pre, msg.toList = pre ++ exitLit ++ ds ∧ ds ≠ [] ∧
      ds.all Char.isDigit = true := by
  unfold findExitStatus at h
  split at h
  case isTrue hc =>
    obtain ⟨hne, hsuf⟩ := hc
    obtain ⟨t, ht⟩ := List.isSuffixOf_iff_suffix.mp hsuf
    cases h
    refine ⟨t, ?_, hne, digitSuffix_all msg.toList⟩
    conv_lhs => rw [← chopDigits_append_digitSuffix msg.toList]
    rw [← ht, List.append_assoc]
  case isFalse hc => cases h

/-! Lemmas about the chain-execution model. -/

theorem runChainBatch_cons (f : Rec → List Rec) (fs : List (Rec → List Rec))
    (rs : List Rec) :
    runChainBatch (f :: fs) rs = runChainBatch fs (runStageBatch f rs) := rfl

theorem runChainBatch_nil_input (fs : List (Rec → List Rec)) :
    runChainBatch fs [] = [] := by
  induction fs with
  | nil => rfl
  | cons f fs ih =>
    rw [runChainBatch_cons]
    have : runStageBatch f [] = [] := rfl
    rw [this, ih]

theorem runChainBatch_append (fs : List (Rec → List Rec)) (xs ys : List Rec) :
    runChainBatch fs (xs ++ ys) = runChainBatch fs xs ++ runChainBatch fs ys := by
  induction fs generalizing xs ys with
  | nil => rfl
  | cons f fs ih =>
    rw [runChainBatch_cons, runChainBatch_cons, runChainBatch_cons]
    have : runStageBatch f (xs ++ ys) = runStageBatch f xs ++ runStageBatch f ys := by
      unfold runStageBatch
      exact List.flatMap_append xs ys f
    rw [this, ih]

/-- Record-at-a-time (streaming) execution of a chain of pure per-record
stages produces the same record sequence as stage-at-a-time (batch)
execution. -/
theorem runChainStream_eq_batch (fs : List (Rec → List Rec)) (rs : List Rec) :
    runChainStream fs rs = runChainBatch fs rs := by
  induction rs with
  | nil =>
    unfold runChainStream
    rw [List.flatMap_nil, runChainBatch_nil_input]
  | cons r rs ih =>
    unfold runChainStream
    rw [List.flatMap_cons]
    unfold runChainStream at ih
    rw [ih]
    rw [← runChainBatch_append fs [r] rs]
    rfl

/-! The claims. -/

/-- Claim C1, counterexample: a present pipe whose sticky error is `"boom"`
and whose source still holds the two bytes `[65, 66]`.  `Read` does not return
`(0, io.EOF)`: it returns the two bytes with no error, refuting the claim that
once the error is non-nil every read returns end-of-data immediately. -/
theorem claim_C1_counterexample :
    Pipe.Error (some (Pipe.mk (ReadAutoCloser.mk [65, 66] none none)
      (some "boom") false)) = some "boom" ∧
    (Pipe.Read (some (Pipe.mk (ReadAutoCloser.mk [65, 66] none none)
      (some "boom") false)) 8).1 = (2, none) ∧
    (Pipe.Read (some (Pipe.mk (ReadAutoCloser.mk [65, 66] none none)
      (some "boom") false)) 8).1 ≠ (0, some ReadErr.eof) := by
  refine ⟨rfl, rfl, ?_⟩
  decide

/-- Claim C1, amended: `Read` on an absent pipe returns `(0, io.EOF)`; on a
present pipe it forwards the call to the underlying source unchanged,
regardless of the sticky error — the source's data, if any, is still
returned.  The exhausted-on-error behaviour is not enforced by `Read`
itself. -/
theorem claim_C1_read_forwards (q : Pipe) (n : Nat) :
    Pipe.Read none n = ((0, some ReadErr.eof), none) ∧
    Pipe.Read (some q) n =
      ((q.Reader.read n).1, some (Pipe.mk (q.Reader.read n).2 q.err q.async)) :=
  ⟨rfl, rfl⟩

/-- Claim C2: `Synchronize` returns the very same pipe when the pipe is
absent, carries a non-nil error, or is not streaming; otherwise it returns a
brand-new pipe wrapping the drained bytes, with streaming off and no error;
and when the source has no read failure the drain collects exactly the
source's remaining bytes. -/
theorem claim_C2_synchronize (q : Pipe) :
    Pipe.Synchronize none = none ∧
    (q.err ≠ none ∨ q.async = false → Pipe.Synchronize (some q) = some q) ∧
    (q.err = none → q.async = true →
      Pipe.Synchronize (some q) =
        some (Pipe.mk (ReadAutoCloser.mk (ioCopy q.Reader).1 none none)
          none false)) ∧
    (q.Reader.fail = none → (ioCopy q.Reader).1 = q.Reader.data) := by
  obtain ⟨r, e, a⟩ := q
  refine ⟨rfl, ?_, ?_, fun _ => rfl⟩
  · intro h
    cases e with
    | some v => rfl
    | none =>
      cases a with
      | false => rfl
      | true =>
        rcases h with h | h
        · exact absurd rfl h
        · cases h
  · intro he ha
    cases he
    cases ha
    rfl

/-- Witness for C2: a streaming pipe with error `"e"` is returned unchanged,
and an error-free streaming pipe over bytes `[3, 4]` synchronizes to a fresh
non-streaming pipe holding those bytes. -/
theorem claim_C2_synchronize_witness :
    Pipe.Synchronize (some (Pipe.mk (ReadAutoCloser.mk [3] none none)
      (some "e") true)) =
      some (Pipe.mk (ReadAutoCloser.mk [3] none none) (some "e") true) ∧
    Pipe.Synchronize (some (Pipe.mk (ReadAutoCloser.mk [3, 4] none none)
      none true)) =
      some (Pipe.mk (ReadAutoCloser.mk [3, 4] none none) none false) := by
  constructor
  · exact (claim_C2_synchronize _).2.1 (Or.inl (by decide))
  · exact (claim_C2_synchronize _).2.2.1 rfl rfl

/-- Claim C3: when the pipe's error text decomposes as anything followed by
`"exit status "` and a nonempty digit run reaching the end of the string,
`ExitStatus` returns that number (when it fits a 64-bit int) and 0 on
overflow; when no such decomposition exists, and when no error is set,
`ExitStatus` returns 0. -/
theorem claim_C3_exit_status (p : Pipe) :
    (p.err = none → Pipe.ExitStatus (some p) = 0) ∧
    (∀ msg : String, p.err = some msg →
      (∀ pre ds : List Char, msg.toList = pre ++ exitLit ++ ds → ds ≠ [] →
        ds.all Char.isDigit = true →
        (digitsVal ds ≤ 2 ^ 63 - 1 → Pipe.ExitStatus (some p) = digitsVal ds) ∧
        (2 ^ 63 - 1 < digitsVal ds → Pipe.ExitStatus (some p) = 0)) ∧
      ((¬ ∃ pre ds : List Char, msg.toList = pre ++ exitLit ++ ds ∧ ds ≠ [] ∧
        ds.all Char.isDigit = true) → Pipe.ExitStatus (some p) = 0)) := by
  constructor
  · intro h
    simp [Pipe.ExitStatus, Pipe.Error, h]
  · intro msg hmsg
    constructor
    · intro pre ds hdec hne hall
      have hfind := findExitStatus_eq_some msg pre ds hdec hne hall
      constructor
      · intro hle
        have hle' : digitsVal ds ≤ 9223372036854775807 := hle
        simp [Pipe.ExitStatus, Pipe.Error, hmsg, hfind, atoi, hne, hall, hle']
      · intro hgt
        have hnle : ¬ digitsVal ds ≤ 9223372036854775807 := not_le.mpr hgt
        simp [Pipe.ExitStatus, Pipe.Error, hmsg, hfind, atoi, hnle]
    · intro hno
      have hfind : findExitStatus msg = none := by
        cases hf : findExitStatus msg with
        | none => rfl
        | some ds =>
          obtain ⟨pre, hdec, hne, hall⟩ := findExitStatus_some_decomp msg ds hf
          exact absurd ⟨pre, ds, hdec, hne, hall⟩ hno
      simp [Pipe.ExitStatus, Pipe.Error, hmsg, hfind]

/-- Witness for C3: a pipe whose error is `"exit status 127"` has exit status
127. -/
theorem claim_C3_exit_status_witness :
    Pipe.ExitStatus (some (Pipe.mk (ReadAutoCloser.mk [] none none)
      (some "exit status 127") false)) = 127 := by
  have h := ((claim_C3_exit_status (Pipe.mk (ReadAutoCloser.mk [] none none)
    (some "exit status 127") false)).2 "exit status 127" rfl).1
    [] "127".toList (by decide) (by decide) (by decide)
  exact (h.1 (by decide)).trans (by decide)

/-- Claim C4: every public operation on an absent (nil) pipe is a safe no-op
returning its zero value: `Error` returns nil, `ExitStatus` returns 0,
`Close` returns nil, and `Read` returns `(0, io.EOF)` for every buffer. -/
theorem claim_C4_nil_pipe_safe :
    Pipe.Error none = none ∧ Pipe.ExitStatus none = 0 ∧
    Pipe.Close none = none ∧
    ∀ n : Nat, Pipe.Read none n = ((0, some ReadErr.eof), none) :=
  ⟨rfl, rfl, rfl, fun _ => rfl⟩

/-- Claim C5: once the chain's sticky error is non-nil, no error later
observed by a stage replaces it — after any sequence of stage observations,
`Error` and `Wait` still report the first recorded error. -/
theorem claim_C5_first_error_wins (p : Option Pipe) (e0 : Err)
    (h : Pipe.Error p = some e0) (es : List Err) :
    Pipe.Error (observeChain p es) = some e0 ∧
    waitError (observeChain p es) = some e0 := by
  suffices hs : Pipe.Error (observeChain p es) = some e0 from ⟨hs, hs⟩
  induction es generalizing p with
  | nil => exact h
  | cons e es ih =>
    have hstep : observeChain p (e :: es) = observeChain (observeError p e) es := rfl
    rw [hstep]
    have hobs : observeError p e = p := by
      unfold observeError
      rw [h]
    rw [hobs]
    exact ih p h

/-- Witness for C5: a chain carrying `"first"` still reports `"first"` after
stages observe `"second"` and `"third"`. -/
theorem claim_C5_first_error_wins_witness :
    Pipe.Error (observeChain (some (Pipe.mk (ReadAutoCloser.mk [] none none)
      (some "first") true)) ["second", "third"]) = some "first" :=
  (claim_C5_first_error_wins (some (Pipe.mk (ReadAutoCloser.mk [] none none)
    (some "first") true)) "first" rfl ["second", "third"]).1

/-- Claim C6: for any chain of pure per-record stages with no induced failure,
draining the streaming run through `Synchronize` yields a non-streaming pipe
whose buffered bytes are byte-identical to the batch run's output on the same
input. -/
theorem claim_C6_stream_batch_equivalence (fs : List (Rec → List Rec))
    (rs : List Rec) :
    Pipe.Synchronize (some (Pipe.mk
      (ReadAutoCloser.mk (recBytes (runChainStream fs rs)) none none)
      none true)) =
    some (Pipe.mk
      (ReadAutoCloser.mk (recBytes (runChainBatch fs rs)) none none)
      none false) := by
  rw [runChainStream_eq_batch]
  rfl

/-- Claim C7: the code at `Synchronize` discards the drain's I/O error — on a
streaming pipe whose source fails with `"disk read failed"` after two bytes,
the drain reports that error, yet the resulting pipe carries no error at all
(the claim says the error must be recorded in the sticky slot). -/
theorem claim_C7_drain_error_discarded :
    (ioCopy (ReadAutoCloser.mk [1, 2] (some "disk read failed") none)).2 =
      some "disk read failed" ∧
    Pipe.Synchronize (some (Pipe.mk
      (ReadAutoCloser.mk [1, 2] (some "disk read failed") none) none true)) =
      some (Pipe.mk (ReadAutoCloser.mk [1, 2] none none) none false) ∧
    Pipe.Error (Pipe.Synchronize (some (Pipe.mk
      (ReadAutoCloser.mk [1, 2] (some "disk read failed") none) none true))) =
      none :=
  ⟨rfl, rfl, rfl⟩

/-- Claim C8: on a present pipe, `SetError` unconditionally overwrites the
sticky error with its argument (nil included), so `Error` then returns exactly
that argument; and the error field is untouched (never cleared implicitly) by
`WithError`-free operations such as `Stream`, `WithReader` and `Read`. -/
theorem claim_C8_seterror_overwrites (q : Pipe) (e : Option Err)
    (r : ReadAutoCloser) (n : Nat) :
    Pipe.SetError (some q) e = some (Pipe.mk q.Reader e q.async) ∧
    Pipe.Error (Pipe.SetError (some q) e) = e ∧
    Pipe.Error (Pipe.WithError (some q) e) = e ∧
    Pipe.Error (Pipe.Stream (some q)) = q.err ∧
    Pipe.Error (Pipe.WithReader (some q) r) = q.err ∧
    Pipe.Error (Pipe.Read (some q) n).2 = q.err :=
  ⟨rfl, rfl, rfl, rfl, rfl, rfl⟩

/-- Claim C9: package-level `Stream()` returns a fresh pipe with streaming on,
an empty source and no error; the instance method returns the same pipe with
streaming forced true, and an absent pipe unchanged. -/
theorem claim_C9_stream_constructors (q : Pipe) :
    Stream = some (Pipe.mk (ReadAutoCloser.mk [] none none) none true) ∧
    Pipe.Stream (some q) = some (Pipe.mk q.Reader q.err true) ∧
    Pipe.Stream none = none :=
  ⟨rfl, rfl, rfl⟩

/-- Claim C10: `WithReader` on a present pipe replaces only the source: the
sticky error and the streaming flag are unchanged, so a non-nil error survives
rebinding; an absent pipe is returned absent. -/
theorem claim_C10_withreader_frame (q : Pipe) (r : ReadAutoCloser) :
    Pipe.WithReader (some q) r = some (Pipe.mk r q.err q.async) ∧
    Pipe.Error (Pipe.WithReader (some q) r) = q.err ∧
    Pipe.WithReader none r = none :=
  ⟨rfl, rfl, rfl⟩

end Script
